import Mathlib

/-!
Shallow embedding of the alarm-scheduling, voice-store and audio-resolution
core of the Adhan application (src/services/notifications.ts,
src/services/voicesManager.ts, src/services/adhanVoices.ts,
src/components/AdhanVoiceSelector.tsx and the two AppMain playback handlers).

Modelling conventions:
* absolute timestamps are integers (seconds); `setDate(getDate()+1)` — adding
  one calendar day at the same wall-clock time — is modelled as `+86400`
  (civil time without DST jumps);
* `toISOString().slice(0,10)` (used only inside diagnostic tags) is
  abstracted as the day index since the epoch;
* the platform notification registry is a list of pending alarms plus a
  fresh-id counter; AsyncStorage keys are fields of an explicit state record;
* fallible platform calls (cancellation, download, file writes, audio
  loading) are driven by explicit outcome oracles passed as arguments, so
  every error path of the source is a reachable branch of the model.
-/

namespace AdhanApp


/-- Absolute timestamp in seconds. -/
abbrev Instant := Int

/-- `scheduledDate.toISOString().slice(0, 10)` abstracted to the day index
since the epoch (the tag is diagnostic only). -/
def isoDay (t : Instant) : String := toString (t / 86400)

/-- The app-private document directory (`FileSystem.documentDirectory`). -/
def documentDirectory : String := "file:///data/"

/-- One entry of the platform notification registry: the content passed to
`Notifications.scheduleNotificationAsync` plus the platform id. -/
structure Alarm where
  id : Nat
  idTag : String
  title : String
  body : String
  date : Instant
  voicePath : Option String
deriving DecidableEq

/-- The notification-side durable state: the platform's pending alarms, the
persisted `SCHEDULED_ADHAN_IDS` list, and the platform id counter. -/
structure NotifState where
  pending : List Alarm
  scheduledIds : List Nat
  nextId : Nat
deriving DecidableEq

/-- `scheduleNotificationForPrayer` (notifications.ts:23-53): registers one
alarm with the platform and appends its id to the persisted
`SCHEDULED_ADHAN_IDS` list (the same list for every caller). -/
def scheduleNotificationForPrayer (idTag title body : String) (date : Instant)
    (voicePath : Option String) (s : NotifState) : Nat × NotifState :=
  let id := s.nextId
  let a : Alarm := ⟨id, idTag, title, body, date, voicePath⟩
  (id, ⟨s.pending ++ [a], s.scheduledIds ++ [id], s.nextId + 1⟩)

/-- `cancelAllScheduledNotifications` (notifications.ts:55-64).
`cancelOk id` is the outcome of `Notifications.cancelScheduledNotificationAsync id`.
All cancellations are issued (`Promise.all(arr.map ...)`), each successful one
removes its alarm from the registry; `AsyncStorage.removeItem` runs only when
every cancellation succeeded, because a single rejection makes `Promise.all`
reject into the surrounding `catch`, skipping the removal. -/
def cancelAllScheduledNotifications (cancelOk : Nat → Bool) (s : NotifState) : NotifState :=
  let arr := s.scheduledIds
  let pending' := s.pending.filter (fun a => !(arr.contains a.id && cancelOk a.id))
  if arr.all cancelOk then ⟨pending', [], s.nextId⟩
  else ⟨pending', arr, s.nextId⟩

/-- `if (scheduledDate <= now) scheduledDate.setDate(scheduledDate.getDate() + 1)`:
a non-future instant is moved to the same wall-clock time one day later. -/
def rollIfPast (now dt : Instant) : Instant :=
  if dt ≤ now then dt + 86400 else dt

/-- The `for (const [name, dt] of entries)` loop of
`scheduleDailyPrayerNotifications` (notifications.ts:74-90): each entry is
rolled forward if past, scheduled, and its id collected. The per-iteration
`new Date()` is modelled by a single `now` (time frozen during the loop). -/
def scheduleLoop (now : Instant) (voicePath : Option String) :
    List (String × Instant) → NotifState → List Nat × NotifState
  | [], s => ([], s)
  | (name, dt) :: rest, s =>
    let d := rollIfPast now dt
    let (id, s1) := scheduleNotificationForPrayer (name ++ "-" ++ isoDay d)
      (name ++ " prayer time") ("It's time for " ++ name ++ " prayer") d voicePath s
    let (ids, s2) := scheduleLoop now voicePath rest s1
    (id :: ids, s2)

/-- `scheduleDailyPrayerNotifications` (notifications.ts:66-93): cancel every
previously tracked alarm, then schedule one alarm per map entry, all carrying
the single `voicePath` argument. (`ensureNotificationChannel` is a no-op on
this state.) -/
def scheduleDailyPrayerNotifications (cancelOk : Nat → Bool)
    (m : List (String × Instant)) (now : Instant) (voicePath : Option String)
    (s : NotifState) : List Nat × NotifState :=
  scheduleLoop now voicePath m (cancelAllScheduledNotifications cancelOk s)

/-- `scheduleTestNotification` (notifications.ts:95-109): schedules a one-shot
alarm `minutesFromNow` minutes ahead through the same
`scheduleNotificationForPrayer` path (hence the same persisted id list). -/
def scheduleTestNotification (minutesFromNow : Int) (voicePath : Option String)
    (now : Instant) (s : NotifState) : (Nat × Instant) × NotifState :=
  let date := now + minutesFromNow * 60
  let (id, s1) := scheduleNotificationForPrayer ("test-" ++ toString date)
    "Test Adhan" "This notification will play the active adhan voice when received."
    date voicePath s
  ((id, date), s1)

/-- The alarm created for the `i`-th map entry. -/
def mkAlarm (now : Instant) (voicePath : Option String) (id : Nat)
    (p : String × Instant) : Alarm :=
  let d := rollIfPast now p.2
  ⟨id, p.1 ++ "-" ++ isoDay d, p.1 ++ " prayer time",
    "It's time for " ++ p.1 ++ " prayer", d, voicePath⟩

/-- The list of alarms a scheduling loop creates, starting at platform id `i`. -/
def createdAlarms (now : Instant) (voicePath : Option String) :
    Nat → List (String × Instant) → List Alarm
  | _, [] => []
  | i, p :: rest => mkAlarm now voicePath i p :: createdAlarms now voicePath (i + 1) rest

/-- The contiguous block of platform ids handed out starting at `i`. -/
def idRange : Nat → Nat → List Nat
  | _, 0 => []
  | i, n + 1 => i :: idRange (i + 1) n

/-- A six-entry prayer map whose instants all lie in the past relative to
`now = 100` by less than one day. -/
def demoRecentMap : List (String × Instant) :=
  [("Fajr", 10), ("Sunrise", 20), ("Dhuhr", 30), ("Asr", 40), ("Maghrib", 50), ("Isha", 60)]

/-- A six-entry prayer map whose instants lie more than one day in the past
relative to `now = 200000`. -/
def demoFarPastMap : List (String × Instant) :=
  [("Fajr", 0), ("Sunrise", 1000), ("Dhuhr", 2000), ("Asr", 3000),
   ("Maghrib", 4000), ("Isha", 5000)]

/-- `'regular' | 'fajr'` — the `type` field of an AdhanVoice
(adhanVoices.ts). -/
inductive VoiceType
  | regular
  | fajr
deriving DecidableEq

/-- One entry of the curated voice list (adhanVoices.ts, `AdhanVoice`). -/
structure AdhanVoice where
  id : String
  name : String
  reciter : String
  type : VoiceType
  previewUrl : String
  downloadUrl : String
  duration : Option String
  origin : Option String
deriving DecidableEq

/-- The ten hard-coded voices of `ADHAN_VOICES` (adhanVoices.ts). -/
def ADHAN_VOICES : List AdhanVoice :=
  [⟨"makkah-regular", "Makkah Adhan", "Sheikh Ali Ahmed Mullah", .regular,
     "https://www.islamcan.com/audio/adhan/azan1.mp3",
     "https://www.islamcan.com/audio/adhan/azan1.mp3", some "3:45",
     some "Masjid al-Haram, Makkah"⟩,
   ⟨"madinah-regular", "Madinah Adhan", "Sheikh Essam Bukhari", .regular,
     "https://www.islamcan.com/audio/adhan/azan2.mp3",
     "https://www.islamcan.com/audio/adhan/azan2.mp3", some "3:30",
     some "Masjid an-Nabawi, Madinah"⟩,
   ⟨"mishary-regular", "Mishary Rashid Adhan", "Mishary Rashid Alafasy", .regular,
     "https://www.islamcan.com/audio/adhan/azan3.mp3",
     "https://www.islamcan.com/audio/adhan/azan3.mp3", some "4:00", some "Kuwait"⟩,
   ⟨"abdul-basit-regular", "Abdul Basit Adhan", "Sheikh Abdul Basit", .regular,
     "https://www.islamcan.com/audio/adhan/azan4.mp3",
     "https://www.islamcan.com/audio/adhan/azan4.mp3", some "3:50", some "Egypt"⟩,
   ⟨"egypt-regular", "Egyptian Adhan", "Al-Azhar Mosque", .regular,
     "https://www.islamcan.com/audio/adhan/azan5.mp3",
     "https://www.islamcan.com/audio/adhan/azan5.mp3", some "4:10",
     some "Al-Azhar, Cairo"⟩,
   ⟨"turkish-regular", "Turkish Adhan", "Turkish Style", .regular,
     "https://www.islamcan.com/audio/adhan/azan6.mp3",
     "https://www.islamcan.com/audio/adhan/azan6.mp3", some "3:40", some "Turkey"⟩,
   ⟨"makkah-fajr", "Makkah Fajr Adhan", "Sheikh Ali Ahmed Mullah", .fajr,
     "https://www.islamcan.com/audio/adhan/azan7.mp3",
     "https://www.islamcan.com/audio/adhan/azan7.mp3", some "4:00",
     some "Masjid al-Haram, Makkah"⟩,
   ⟨"madinah-fajr", "Madinah Fajr Adhan", "Sheikh Essam Bukhari", .fajr,
     "https://www.islamcan.com/audio/adhan/azan8.mp3",
     "https://www.islamcan.com/audio/adhan/azan8.mp3", some "4:15",
     some "Masjid an-Nabawi, Madinah"⟩,
   ⟨"mishary-fajr", "Mishary Fajr Adhan", "Mishary Rashid Alafasy", .fajr,
     "https://www.islamcan.com/audio/adhan/azan9.mp3",
     "https://www.islamcan.com/audio/adhan/azan9.mp3", some "4:30", some "Kuwait"⟩,
   ⟨"abdul-basit-fajr", "Abdul Basit Fajr", "Sheikh Abdul Basit", .fajr,
     "https://www.islamcan.com/audio/adhan/azan10.mp3",
     "https://www.islamcan.com/audio/adhan/azan10.mp3", some "4:20", some "Egypt"⟩]

/-- `getAdhanVoiceById` (adhanVoices.ts): `ADHAN_VOICES.find(v => v.id === id)`. -/
def getAdhanVoiceById (i : String) : Option AdhanVoice :=
  ADHAN_VOICES.find? (fun v => v.id == i)

/-- The AsyncStorage keys and filesystem the AdhanVoiceSelector helpers read:
`SELECTED_REGULAR_ADHAN`, `SELECTED_FAJR_ADHAN` (`none` models both an unset
key and an AsyncStorage read failure, which the source catches and turns into
the default id) and the outcome of `FileSystem.getInfoAsync(...).exists`
(`false` also covers a throwing `getInfoAsync`, caught by the source). -/
structure ResolverEnv where
  selectedRegular : Option String
  selectedFajr : Option String
  fileExists : String → Bool

/-- `getSelectedRegularAdhan` (AdhanVoiceSelector.tsx): the stored id, or
`'makkah-regular'` when unset, empty, or on a storage error. -/
def getSelectedRegularAdhan (env : ResolverEnv) : String :=
  match env.selectedRegular with
  | some v => if v = "" then "makkah-regular" else v
  | none => "makkah-regular"

/-- `getSelectedFajrAdhan` (AdhanVoiceSelector.tsx). -/
def getSelectedFajrAdhan (env : ResolverEnv) : String :=
  match env.selectedFajr with
  | some v => if v = "" then "makkah-fajr" else v
  | none => "makkah-fajr"

/-- `FileSystem.documentDirectory + 'adhan/' + voice.id + '.mp3'`. -/
def adhanLocalPath (i : String) : String :=
  documentDirectory ++ "adhan/" ++ i ++ ".mp3"

/-- ASCII lowering of one character (the prayer names passed through
`toLowerCase` in the source are ASCII). -/
def charLower (c : Char) : Char :=
  if 'A' ≤ c ∧ c ≤ 'Z' then Char.ofNat (c.toNat + 32) else c

/-- JavaScript's `String.prototype.toLowerCase` on the ASCII strings this
code passes it. -/
def toLowerCase (s : String) : String := ⟨s.data.map charLower⟩

/-- `getAdhanUrlForPrayer` (AdhanVoiceSelector.tsx:519-541): resolve the
selected voice for the prayer's class, preferring its downloaded local file,
then its remote preview URL, with hard-coded Makkah defaults when the stored
id matches no voice. -/
def getAdhanUrlForPrayer (env : ResolverEnv) (prayerName : String) : String :=
  let isFajr := toLowerCase prayerName == "fajr"
  let selectedId := if isFajr then getSelectedFajrAdhan env else getSelectedRegularAdhan env
  match getAdhanVoiceById selectedId with
  | none =>
    if isFajr then "https://www.islamcan.com/audio/adhan/azan7.mp3"
    else "https://www.islamcan.com/audio/adhan/azan1.mp3"
  | some voice =>
    if env.fileExists (adhanLocalPath voice.id) then adhanLocalPath voice.id
    else voice.previewUrl

/-- `onSchedule` of the main screen (AppMain, notifications context lines
693-699): resolve ONE url, for `'dhuhr'` (the regular class), and pass it as
the `voicePath` of every alarm of `scheduleDailyPrayerNotifications`. -/
def onScheduleModel (env : ResolverEnv) (m : List (String × Instant)) (now : Instant)
    (s : NotifState) : List Nat × NotifState :=
  scheduleDailyPrayerNotifications (fun _ => true) m now
    (some (getAdhanUrlForPrayer env "dhuhr")) s

/-- The environment with no stored selections and no local files. -/
def envDefault : ResolverEnv := ⟨none, none, fun _ => false⟩

/-- A six-prayer map, all in the future of `now = 0`. -/
def demoPrayerMap : List (String × Instant) :=
  [("Fajr", 100), ("Sunrise", 200), ("Dhuhr", 300), ("Asr", 400),
   ("Maghrib", 500), ("Isha", 600)]

/-- `FileSystem.documentDirectory + 'voices/'` (voicesManager.ts). -/
def voicesDir : String := documentDirectory ++ "voices/"

/-- `destDir + 'voice-' + id + '.wav'` — where voicesManager stores a voice. -/
def voiceFilePath (i : String) : String := voicesDir ++ "voice-" ++ i ++ ".wav"

/-- `VoiceMeta` (voicesManager.ts). -/
structure VoiceMeta where
  id : String
  name : String
  path : Option String
  variant : Option String
deriving DecidableEq

/-- `RemoteVoice` (voicesManager.ts). -/
structure RemoteVoice where
  id : String
  name : String
  previewUrl : String
deriving DecidableEq

/-- The voicesManager durable state: the parsed `DOWNLOADED_VOICES` index,
the `ACTIVE_VOICE_ID` pointer, and the set of files on disk (as a list of
paths). -/
structure VMState where
  downloaded : List VoiceMeta
  activeId : Option String
  files : List String
deriving DecidableEq

/-- Writing a file: the path becomes present (idempotently). -/
def addFile (files : List String) (p : String) : List String :=
  if files.contains p then files else files ++ [p]

/-- `FileSystem.deleteAsync(path, { idempotent: true })`. -/
def removeFile (files : List String) (p : String) : List String :=
  files.filter (fun q => q != p)

/-- Where a `downloadRemoteVoice` run can end: `makeDirectoryAsync` throwing,
`downloadAsync` throwing (after the idempotent delete already ran),
`AsyncStorage` failing after the file was written, or full success. Any throw
lands in the surrounding `catch`, which returns `null`. -/
inductive DlOutcome
  | mkdirFail
  | downloadFail
  | indexWriteFail
  | success
deriving DecidableEq

/-- `downloadRemoteVoice` (voicesManager.ts:50-73): mkdir, idempotent delete
of the target path, download, then — only after a successful download — the
index is read, filtered of the same id, extended with the new record and
written back. Every failure returns `null`. -/
def downloadRemoteVoice (o : DlOutcome) (remote : RemoteVoice) (s : VMState) :
    Option VoiceMeta × VMState :=
  match o with
  | .mkdirFail => (none, s)
  | .downloadFail =>
    (none, { s with files := removeFile s.files (voiceFilePath remote.id) })
  | .indexWriteFail =>
    let files' := addFile (removeFile s.files (voiceFilePath remote.id))
      (voiceFilePath remote.id)
    (none, { s with files := files' })
  | .success =>
    let newPath := voiceFilePath remote.id
    let meta : VoiceMeta := ⟨remote.id, remote.name, some newPath, some remote.id⟩
    (some meta,
      { downloaded := (s.downloaded.filter (fun a => a.id != remote.id)) ++ [meta],
        activeId := s.activeId,
        files := addFile (removeFile s.files newPath) newPath })

/-- `downloadVoice` (voicesManager.ts:75-98): synthesize
(`generateSyntheticAdhan voiceId`, writing `adhan-synthetic-<id>.wav`), copy
it into the voices folder, and replace any record of the same id in the
durable index. `ok` is the outcome of the try block; on a throw the catch
returns `null`. -/
def downloadVoice (ok : Bool) (voiceId : String) (s : VMState) :
    Option VoiceMeta × VMState :=
  if ok then
    let synthPath := documentDirectory ++ "adhan-synthetic-" ++ voiceId ++ ".wav"
    let newPath := voiceFilePath voiceId
    let meta : VoiceMeta := ⟨voiceId, voiceId, some newPath, some voiceId⟩
    (some meta,
      { downloaded := (s.downloaded.filter (fun a => a.id != voiceId)) ++ [meta],
        activeId := s.activeId,
        files := addFile (addFile s.files synthPath) newPath })
  else (none, s)

/-- `removeDownloadedVoice` (voicesManager.ts:100-114): filter the index,
delete the file, and clear `ACTIVE_VOICE_ID` when it pointed at the removed
id. -/
def removeDownloadedVoice (voiceId : String) (s : VMState) : VMState :=
  { downloaded := s.downloaded.filter (fun a => a.id != voiceId),
    activeId := if s.activeId = some voiceId then none else s.activeId,
    files := removeFile s.files (voiceFilePath voiceId) }

/-- `listDownloadedVoices` (voicesManager.ts:116-119). -/
def listDownloadedVoices (s : VMState) : List VoiceMeta := s.downloaded

/-- `setActiveVoice` (voicesManager.ts:121-127): a falsy id (null or empty)
clears the pointer; no validation against the index. -/
def setActiveVoice (voiceId : Option String) (s : VMState) : VMState :=
  match voiceId with
  | none => { s with activeId := none }
  | some v => if v = "" then { s with activeId := none } else { s with activeId := some v }

/-- `getActiveVoice` (voicesManager.ts:129-134): null when the pointer is
unset or falsy, else `find` in the downloaded index (`|| null`). -/
def getActiveVoice (s : VMState) : Option VoiceMeta :=
  match s.activeId with
  | none => none
  | some i => if i = "" then none else s.downloaded.find? (fun a => a.id == i)

/-- `onSchedule` of the first AppMain: the voice path attached to scheduled
alarms is `(await getActiveVoice())?.path`. -/
def scheduleVoicePath (s : VMState) : Option String :=
  (getActiveVoice s).bind VoiceMeta.path

/-- The audio-player resource state shared by the playback handlers: the
`soundRef.current` handle, the set of created-and-not-unloaded sound objects,
and a fresh handle counter. -/
structure P1State where
  held : Option Nat
  live : List Nat
  next : Nat
deriving DecidableEq

/-- `if (soundRef.current) { try { await unloadAsync() } catch {} ; soundRef.current = null }`:
the held handle is released (an unload failure is swallowed and the reference
dropped regardless). -/
def releaseHeld (st : P1State) : P1State :=
  match st.held with
  | some h => ⟨none, st.live.erase h, st.next⟩
  | none => st

/-- `const { sound } = await Audio.Sound.createAsync({ uri }); soundRef.current = sound; await sound.replayAsync()`:
if loading succeeds a fresh handle is created, made held and live, then
played; the returned Bool is whether the whole sequence returned without
throwing. A failed load changes nothing; a failed replay leaves the handle
created and held. -/
def tryPlay (loadOk replayOk : String → Bool) (uri : String) (st : P1State) :
    Bool × P1State :=
  if loadOk uri then
    (replayOk uri, ⟨some st.next, st.live ++ [st.next], st.next + 1⟩)
  else (false, st)

/-- `require('../assets/adhan.mp3')`, the bundled asset. -/
def bundledUri : String := "asset:adhan.mp3"

/-- The hard-coded remote last resort of the first playback handler. -/
def beepUrl : String := "https://actions.google.com/sounds/v1/alarms/beep_short.ogg"

/-- The catch-block fallback of the first `playAdhan` (notifications context
lines 217-253): first `voice-*` file of the voices directory, else first
`adhan-synthetic*` file of the document directory, else the remote beep; a
throw anywhere in this block ends playback (no further fallback). A missing
voices directory is modelled as an empty listing. -/
def playV1Fallback (loadOk replayOk : String → Bool) (dirFiles docFiles : List String)
    (st : P1State) : P1State × Option String :=
  match dirFiles.find? (fun f => f.startsWith "voice-") with
  | some f =>
    ((tryPlay loadOk replayOk (voicesDir ++ f) st).2,
      if (tryPlay loadOk replayOk (voicesDir ++ f) st).1 then some (voicesDir ++ f)
      else none)
  | none =>
    match docFiles.find? (fun f => f.startsWith "adhan-synthetic") with
    | some f =>
      ((tryPlay loadOk replayOk (documentDirectory ++ f) st).2,
        if (tryPlay loadOk replayOk (documentDirectory ++ f) st).1 then
          some (documentDirectory ++ f)
        else none)
    | none =>
      ((tryPlay loadOk replayOk beepUrl st).2,
        if (tryPlay loadOk replayOk beepUrl st).1 then some beepUrl else none)

/-- Step 2 of the first `playAdhan`: the bundled asset, falling into the
catch-block fallback when it throws. -/
def playBundled (loadOk replayOk : String → Bool) (dirFiles docFiles : List String)
    (st : P1State) : P1State × Option String :=
  if (tryPlay loadOk replayOk bundledUri st).1 then
    ((tryPlay loadOk replayOk bundledUri st).2, some bundledUri)
  else playV1Fallback loadOk replayOk dirFiles docFiles
    (tryPlay loadOk replayOk bundledUri st).2

/-- The first `playAdhan` (notifications context lines 188-258): release the
held handle, then try the provided voice path, then the bundled asset, then
the catch-block fallback chain. Returns the final player state and the uri
whose playback succeeded, if any. -/
def playAdhanV1 (vp : Option String) (loadOk replayOk : String → Bool)
    (dirFiles docFiles : List String) (st0 : P1State) : P1State × Option String :=
  let st := releaseHeld st0
  match vp with
  | some p =>
    if (tryPlay loadOk replayOk p st).1 then
      ((tryPlay loadOk replayOk p st).2, some p)
    else playBundled loadOk replayOk dirFiles docFiles (tryPlay loadOk replayOk p st).2
  | none => playBundled loadOk replayOk dirFiles docFiles st

/-- Resource events of a playback run: releasing (unloading) a handle and
acquiring (creating) one. -/
inductive AEvent
  | rel (h : Nat)
  | acq (h : Nat)
deriving DecidableEq

/-- Effect of one event on the set of live handles. -/
def applyEvent (live : List Nat) : AEvent → List Nat
  | .rel h => live.erase h
  | .acq h => live ++ [h]

/-- The largest number of simultaneously live handles along an event trace. -/
def maxLive (live : List Nat) : List AEvent → Nat
  | [] => live.length
  | e :: rest => max live.length (maxLive (applyEvent live e) rest)

/-- The second `playAdhan` (notifications context lines 682-691): in silent
mode nothing happens; otherwise the held handle is unloaded first, then one
sound is created (when `createAsync` succeeds) and becomes the held handle —
a later `setVolumeAsync`/`playAsync` failure is caught and changes no
resource state. -/
def playAdhanV2 (silentMode createOk : Bool) (st : P1State) : P1State × List AEvent :=
  if silentMode then (st, [])
  else
    let r1 : P1State × List AEvent :=
      match st.held with
      | some h => (⟨none, st.live.erase h, st.next⟩, [AEvent.rel h])
      | none => (st, [])
    if createOk then
      (⟨some r1.1.next, r1.1.live ++ [r1.1.next], r1.1.next + 1⟩,
        r1.2 ++ [AEvent.acq r1.1.next])
    else (r1.1, r1.2)

theorem createdAlarms_length (now : Instant) (vp : Option String) (i : Nat)
    (m : List (String × Instant)) : (createdAlarms now vp i m).length = m.length := by
  induction m generalizing i with
  | nil => rfl
  | cons p rest ih => simp [createdAlarms, ih]

theorem createdAlarms_mem (now : Instant) (vp : Option String) (i : Nat)
    (m : List (String × Instant)) (a : Alarm) (ha : a ∈ createdAlarms now vp i m) :
    ∃ p ∈ m, ∃ j, a = mkAlarm now vp j p := by
  induction m generalizing i with
  | nil => simp [createdAlarms] at ha
  | cons p rest ih =>
    simp only [createdAlarms, List.mem_cons] at ha
    rcases ha with h | h
    · exact ⟨p, by simp, i, h⟩
    · obtain ⟨q, hq, j, hj⟩ := ih (i + 1) h
      exact ⟨q, by simp [hq], j, hj⟩

theorem createdAlarms_id_mem (now : Instant) (vp : Option String) (i : Nat)
    (m : List (String × Instant)) (a : Alarm) (ha : a ∈ createdAlarms now vp i m) :
    i ≤ a.id ∧ a.id < i + m.length := by
  induction m generalizing i with
  | nil => simp [createdAlarms] at ha
  | cons p rest ih =>
    simp only [createdAlarms, List.mem_cons] at ha
    simp only [List.length_cons]
    rcases ha with h | h
    · subst h; simp [mkAlarm]
    · have := ih (i + 1) h
      omega

theorem mem_idRange (j : Nat) : ∀ (i n : Nat), j ∈ idRange i n ↔ i ≤ j ∧ j < i + n := by
  intro i n
  induction n generalizing i with
  | zero => simp [idRange]
  | succ n ih =>
    simp only [idRange, List.mem_cons, ih]
    omega

/-- Characterization of the scheduling loop: it appends the created alarms to
the registry, appends their ids (a contiguous range) to the persisted list,
and advances the id counter. -/
theorem scheduleLoop_spec (now : Instant) (vp : Option String)
    (m : List (String × Instant)) (s : NotifState) :
    scheduleLoop now vp m s =
      (idRange s.nextId m.length,
        ⟨s.pending ++ createdAlarms now vp s.nextId m,
         s.scheduledIds ++ idRange s.nextId m.length,
         s.nextId + m.length⟩) := by
  induction m generalizing s with
  | nil => simp [scheduleLoop, createdAlarms, idRange]
  | cons p rest ih =>
    obtain ⟨name, dt⟩ := p
    simp only [scheduleLoop, scheduleNotificationForPrayer, ih, createdAlarms, mkAlarm,
      idRange, List.length_cons, Prod.mk.injEq, NotifState.mk.injEq, true_and,
      List.append_assoc, List.singleton_append, List.cons_append]
    refine ⟨?_, ?_, ?_⟩ <;> first | rfl | omega

theorem mkAlarm_date (now : Instant) (vp : Option String) (i : Nat)
    (p : String × Instant) : (mkAlarm now vp i p).date = rollIfPast now p.2 := rfl

theorem mkAlarm_voicePath (now : Instant) (vp : Option String) (i : Nat)
    (p : String × Instant) : (mkAlarm now vp i p).voicePath = vp := rfl

theorem createdAlarms_getElem?_date (now : Instant) (vp : Option String) (i : Nat)
    (m : List (String × Instant)) : ∀ j : Nat,
    ((createdAlarms now vp i m)[j]?).map Alarm.date =
      (m[j]?).map (fun p : String × Instant => rollIfPast now p.2) := by
  induction m generalizing i with
  | nil => intro j; simp [createdAlarms]
  | cons p rest ih =>
    intro j
    cases j with
    | zero => simp [createdAlarms, mkAlarm_date]
    | succ j => simpa [createdAlarms] using ih (i + 1) j

theorem createdAlarms_voicePath (now : Instant) (vp : Option String) (i : Nat)
    (m : List (String × Instant)) (a : Alarm) (ha : a ∈ createdAlarms now vp i m) :
    a.voicePath = vp := by
  obtain ⟨p, _, j, rfl⟩ := createdAlarms_mem now vp i m a ha
  rfl

/-- Structural form of `cancelAllScheduledNotifications`: the registry is
filtered of successfully cancelled tracked alarms, and the persisted list is
cleared exactly when every cancellation succeeded. -/
theorem cancelAll_eq (cancelOk : Nat → Bool) (s : NotifState) :
    cancelAllScheduledNotifications cancelOk s =
      ⟨s.pending.filter (fun a => !(s.scheduledIds.contains a.id && cancelOk a.id)),
       if s.scheduledIds.all cancelOk then [] else s.scheduledIds,
       s.nextId⟩ := by
  by_cases hc : s.scheduledIds.all cancelOk = true
  · simp [cancelAllScheduledNotifications, hc]
  · simp [cancelAllScheduledNotifications, hc]

/-- When every cancellation succeeds and every pending alarm is tracked in the
persisted list (the spec's ownership invariant for ScheduledAlarm),
`cancelAllScheduledNotifications` empties both the registry and the list. -/
theorem cancelAll_allOk (s : NotifState)
    (htrack : ∀ a ∈ s.pending, a.id ∈ s.scheduledIds) :
    cancelAllScheduledNotifications (fun _ => true) s = ⟨[], [], s.nextId⟩ := by
  rw [cancelAll_eq]
  simp only [NotifState.mk.injEq]
  refine ⟨?_, ?_, trivial⟩
  · refine List.filter_eq_nil_iff.mpr ?_
    intro a ha
    simp [htrack a ha]
  · simp

/-- C1 (counterexample): at `now = 200000` every instant of `demoFarPastMap`
is in the past, the call produces exactly six alarms, yet not all of them have
a firing instant strictly greater than `now` — the single one-day roll leaves
an alarm in the past, refuting the claim's universally quantified "in
particular" part. -/
theorem scheduleDaily_far_past_not_future :
    (∀ p ∈ demoFarPastMap, p.2 ≤ (200000 : Instant)) ∧
    (scheduleDailyPrayerNotifications (fun _ => true) demoFarPastMap 200000 none
        ⟨[], [], 0⟩).2.pending.length = 6 ∧
    ¬(∀ a ∈ (scheduleDailyPrayerNotifications (fun _ => true) demoFarPastMap 200000 none
        ⟨[], [], 0⟩).2.pending, (200000 : Instant) < a.date) := by
  decide

/-- C1 (amended): `scheduleDailyPrayerNotifications` replaces each instant
`≤ now` with the same wall-clock time one day later and leaves future instants
unchanged; when the six input instants are all later than `now - 86400`
(in particular when they are in the past by less than one day, as instants
computed for the current day are), the run creates exactly six alarms, every
one with firing instant strictly greater than `now`. -/
theorem scheduleDaily_roll_semantics (cancelOk : Nat → Bool)
    (m : List (String × Instant)) (now : Instant) (vp : Option String)
    (s : NotifState) (hm : m.length = 6)
    (hrecent : ∀ p ∈ m, now - 86400 < p.2) :
    (scheduleDailyPrayerNotifications cancelOk m now vp s).2.pending =
      (cancelAllScheduledNotifications cancelOk s).pending ++
        createdAlarms now vp s.nextId m ∧
    (createdAlarms now vp s.nextId m).length = 6 ∧
    (∀ j : Nat, ((createdAlarms now vp s.nextId m)[j]?).map Alarm.date =
      (m[j]?).map (fun p : String × Instant => rollIfPast now p.2)) ∧
    (∀ a ∈ createdAlarms now vp s.nextId m, now < a.date) := by
  refine ⟨?_, ?_, ?_, ?_⟩
  · simp only [scheduleDailyPrayerNotifications, scheduleLoop_spec, cancelAll_eq]
  · rw [createdAlarms_length, hm]
  · exact createdAlarms_getElem?_date now vp s.nextId m
  · intro a ha
    obtain ⟨p, hp, j, rfl⟩ := createdAlarms_mem now vp s.nextId m a ha
    have hp2 := hrecent p hp
    rw [mkAlarm_date]
    unfold rollIfPast
    split <;> linarith

/-- Witness for C1's amended theorem at the concrete map `demoRecentMap`. -/
theorem scheduleDaily_roll_semantics_witness :
    (createdAlarms 100 none 0 demoRecentMap).length = 6 :=
  (scheduleDaily_roll_semantics (fun _ => true) demoRecentMap 100 none ⟨[], [], 0⟩
    (by decide) (by decide)).2.1

/-- C2: starting from any state whose pending alarms are all tracked in the
persisted id list, running `scheduleDailyPrayerNotifications` twice (all
cancellations succeeding) leaves exactly the second run's six alarms pending —
the set is replaced, never merged. -/
theorem scheduleDaily_twice_replaces (m1 m2 : List (String × Instant))
    (now1 now2 : Instant) (vp1 vp2 : Option String) (s : NotifState)
    (hm1 : m1.length = 6) (hm2 : m2.length = 6)
    (htrack : ∀ a ∈ s.pending, a.id ∈ s.scheduledIds) :
    (scheduleDailyPrayerNotifications (fun _ => true) m2 now2 vp2
        (scheduleDailyPrayerNotifications (fun _ => true) m1 now1 vp1 s).2).2.pending =
      createdAlarms now2 vp2 (s.nextId + 6) m2 ∧
    (scheduleDailyPrayerNotifications (fun _ => true) m2 now2 vp2
        (scheduleDailyPrayerNotifications (fun _ => true) m1 now1 vp1 s).2).2.pending.length
      = 6 := by
  have h1 : (scheduleDailyPrayerNotifications (fun _ => true) m1 now1 vp1 s).2 =
      ⟨createdAlarms now1 vp1 s.nextId m1, idRange s.nextId m1.length,
        s.nextId + m1.length⟩ := by
    simp only [scheduleDailyPrayerNotifications, cancelAll_allOk s htrack,
      scheduleLoop_spec]
    simp
  have htrack1 : ∀ a ∈ createdAlarms now1 vp1 s.nextId m1,
      a.id ∈ idRange s.nextId m1.length := by
    intro a ha
    have := createdAlarms_id_mem now1 vp1 s.nextId m1 a ha
    exact (mem_idRange a.id s.nextId m1.length).mpr this
  have hc1 : cancelAllScheduledNotifications (fun _ => true)
      (⟨createdAlarms now1 vp1 s.nextId m1, idRange s.nextId m1.length,
        s.nextId + m1.length⟩ : NotifState) =
      ⟨[], [], s.nextId + m1.length⟩ :=
    cancelAll_allOk _ htrack1
  have h2 : (scheduleDailyPrayerNotifications (fun _ => true) m2 now2 vp2
      ⟨createdAlarms now1 vp1 s.nextId m1, idRange s.nextId m1.length,
        s.nextId + m1.length⟩).2 =
      ⟨createdAlarms now2 vp2 (s.nextId + m1.length) m2,
        idRange (s.nextId + m1.length) m2.length,
        s.nextId + m1.length + m2.length⟩ := by
    simp only [scheduleDailyPrayerNotifications, hc1, scheduleLoop_spec]
    simp
  rw [h1, h2, hm1]
  exact ⟨rfl, by rw [createdAlarms_length, hm2]⟩

/-- Witness for C2 at a concrete empty initial state. -/
theorem scheduleDaily_twice_replaces_witness :
    (scheduleDailyPrayerNotifications (fun _ => true) demoRecentMap 100 none
        (scheduleDailyPrayerNotifications (fun _ => true) demoRecentMap 100 none
          ⟨[], [], 0⟩).2).2.pending.length = 6 :=
  (scheduleDaily_twice_replaces demoRecentMap demoRecentMap 100 100 none none
    ⟨[], [], 0⟩ (by decide) (by decide) (by simp)).2

/-- C4 (counterexample): on an empty state, `scheduleTestNotification` appends
its id to the persisted daily-alarm id list (the same `SCHEDULED_ADHAN_IDS`
namespace), and a subsequent `cancelAllScheduledNotifications` does cancel the
pending test alarm — refuting the claimed separation of namespaces. -/
theorem testNotification_cancelled_by_cancelAll :
    (scheduleTestNotification 1 (some "voice.wav") 0 ⟨[], [], 0⟩).2.scheduledIds ≠ [] ∧
    (∃ a ∈ (scheduleTestNotification 1 (some "voice.wav") 0 ⟨[], [], 0⟩).2.pending,
      a.id = (scheduleTestNotification 1 (some "voice.wav") 0 ⟨[], [], 0⟩).1.1) ∧
    ¬(∃ a ∈ (cancelAllScheduledNotifications (fun _ => true)
        (scheduleTestNotification 1 (some "voice.wav") 0 ⟨[], [], 0⟩).2).pending,
      a.id = (scheduleTestNotification 1 (some "voice.wav") 0 ⟨[], [], 0⟩).1.1) := by
  decide

/-- C4 (amended): `scheduleTestNotification` appends the test alarm's id to the
same persisted daily-alarm id list, so a later
`cancelAllScheduledNotifications` cancels the test alarm (no alarm with its id
survives). -/
theorem testNotification_shares_id_list (minutes : Int) (vp : Option String)
    (now : Instant) (s : NotifState) :
    (scheduleTestNotification minutes vp now s).2.scheduledIds =
      s.scheduledIds ++ [s.nextId] ∧
    (∃ a ∈ (scheduleTestNotification minutes vp now s).2.pending, a.id = s.nextId) ∧
    (∀ a ∈ (cancelAllScheduledNotifications (fun _ => true)
        (scheduleTestNotification minutes vp now s).2).pending, a.id ≠ s.nextId) := by
  refine ⟨rfl, ?_, ?_⟩
  · exact ⟨⟨s.nextId, "test-" ++ toString (now + minutes * 60), "Test Adhan",
      "This notification will play the active adhan voice when received.",
      now + minutes * 60, vp⟩, by simp [scheduleTestNotification,
        scheduleNotificationForPrayer], rfl⟩
  · intro a ha
    rw [cancelAll_eq] at ha
    have hmem := List.mem_filter.mp ha
    intro hid
    have : (scheduleTestNotification minutes vp now s).2.scheduledIds =
        s.scheduledIds ++ [s.nextId] := rfl
    rw [this, hid] at hmem
    simp at hmem

/-- Witness for C4's amended theorem at a concrete empty state. -/
theorem testNotification_shares_id_list_witness :
    (scheduleTestNotification 1 none 0 ⟨[], [], 0⟩).2.scheduledIds = [] ++ [0] :=
  (testNotification_shares_id_list 1 none 0 ⟨[], [], 0⟩).1

/-- C5 (counterexample): when the cancellation of id 5 fails, the catch around
`Promise.all` skips `AsyncStorage.removeItem`, so the persisted list is left
holding `[5]` instead of being cleared as the claim states. -/
theorem cancelAll_failed_cancel_keeps_list :
    (cancelAllScheduledNotifications (fun id => id != 5)
        ⟨[⟨5, "x", "x", "x", 10, none⟩], [5], 6⟩).scheduledIds = [5] ∧
    ([5] : List Nat) ≠ [] := by
  decide

/-- C5 (amended): when every individual cancellation succeeds,
`cancelAllScheduledNotifications` cancels every tracked alarm and clears the
persisted list, and the operation is then idempotent (on an emptied list any
further call — with any cancellation outcomes — is a no-op); when some
cancellation fails the error is swallowed, not propagated, but the persisted
list is left uncleared. -/
theorem cancelAll_clears_when_all_succeed (cancelOk : Nat → Bool) (s : NotifState)
    (h : ∀ i ∈ s.scheduledIds, cancelOk i = true) :
    (cancelAllScheduledNotifications cancelOk s).scheduledIds = [] ∧
    (cancelAllScheduledNotifications cancelOk s).pending =
      s.pending.filter (fun a => !(s.scheduledIds.contains a.id)) ∧
    (∀ cancelOk2, cancelAllScheduledNotifications cancelOk2
        (cancelAllScheduledNotifications cancelOk s) =
      cancelAllScheduledNotifications cancelOk s) := by
  have hall : s.scheduledIds.all cancelOk = true := List.all_eq_true.mpr h
  have hfilter : s.pending.filter (fun a => !(s.scheduledIds.contains a.id && cancelOk a.id))
      = s.pending.filter (fun a => !(s.scheduledIds.contains a.id)) := by
    refine List.filter_congr ?_
    intro a _
    by_cases hc : a.id ∈ s.scheduledIds
    · simp [hc, h a.id hc]
    · simp [hc]
  refine ⟨?_, ?_, ?_⟩
  · rw [cancelAll_eq]
    simp [hall]
  · rw [cancelAll_eq]
    exact hfilter
  · intro cancelOk2
    have hval : cancelAllScheduledNotifications cancelOk s =
        ⟨s.pending.filter (fun a => !(s.scheduledIds.contains a.id && cancelOk a.id)),
          [], s.nextId⟩ := by
      rw [cancelAll_eq]
      simp [hall]
    rw [hval, cancelAll_eq]
    simp

/-- Witness for C5's amended theorem at a concrete one-alarm state. -/
theorem cancelAll_clears_when_all_succeed_witness :
    (cancelAllScheduledNotifications (fun _ => true)
        ⟨[⟨0, "t", "t", "b", 5, none⟩], [0], 1⟩).scheduledIds = [] :=
  (cancelAll_clears_when_all_succeed (fun _ => true)
    ⟨[⟨0, "t", "t", "b", 5, none⟩], [0], 1⟩ (by decide)).1

/-- C3 (counterexample): on a successful scheduling run from the default
state, the Fajr alarm carries the regular-class resolution (azan1), not the
dawn-class resolution (azan7), and the Sunrise alarm carries an audio
reference rather than none — every alarm gets the one url resolved for
`'dhuhr'`. -/
theorem fajr_alarm_carries_regular_audio :
    ((onScheduleModel envDefault demoPrayerMap 0 ⟨[], [], 0⟩).2.pending[0]?).map
        Alarm.idTag = some ("Fajr-" ++ isoDay 100) ∧
    ((onScheduleModel envDefault demoPrayerMap 0 ⟨[], [], 0⟩).2.pending[0]?).map
        Alarm.voicePath =
      some (some "https://www.islamcan.com/audio/adhan/azan1.mp3") ∧
    getAdhanUrlForPrayer envDefault "Fajr" =
      "https://www.islamcan.com/audio/adhan/azan7.mp3" ∧
    ("https://www.islamcan.com/audio/adhan/azan1.mp3" : String) ≠
      "https://www.islamcan.com/audio/adhan/azan7.mp3" ∧
    ((onScheduleModel envDefault demoPrayerMap 0 ⟨[], [], 0⟩).2.pending[1]?).map
        Alarm.idTag = some ("Sunrise-" ++ isoDay 200) ∧
    ((onScheduleModel envDefault demoPrayerMap 0 ⟨[], [], 0⟩).2.pending[1]?).map
        Alarm.voicePath ≠ some none := by
  decide

/-- C3 (amended): every alarm created by a scheduling run carries the same
audio reference, the one resolved once for the regular class (`'dhuhr'`) —
including the Fajr and Sunrise alarms; no per-prayer-class resolution happens
at scheduling time. -/
theorem scheduled_alarms_share_regular_audio (env : ResolverEnv)
    (m : List (String × Instant)) (now : Instant) (s : NotifState) :
    (onScheduleModel env m now s).2.pending =
      (cancelAllScheduledNotifications (fun _ => true) s).pending ++
        createdAlarms now (some (getAdhanUrlForPrayer env "dhuhr")) s.nextId m ∧
    (∀ a ∈ createdAlarms now (some (getAdhanUrlForPrayer env "dhuhr")) s.nextId m,
      a.voicePath = some (getAdhanUrlForPrayer env "dhuhr")) := by
  constructor
  · simp only [onScheduleModel, scheduleDailyPrayerNotifications, scheduleLoop_spec,
      cancelAll_eq]
  · intro a ha
    exact createdAlarms_voicePath _ _ _ _ a ha

/-- Witness for C3's amended theorem at the default environment. -/
theorem scheduled_alarms_share_regular_audio_witness :
    (mkAlarm 0 (some (getAdhanUrlForPrayer envDefault "dhuhr")) 0
        ("Fajr", 100)).voicePath = some (getAdhanUrlForPrayer envDefault "dhuhr") :=
  (scheduled_alarms_share_regular_audio envDefault [("Fajr", 100)] 0 ⟨[], [], 0⟩).2
    (mkAlarm 0 (some (getAdhanUrlForPrayer envDefault "dhuhr")) 0 ("Fajr", 100))
    (by simp [createdAlarms])

/-- C6: `getAdhanUrlForPrayer` is a total function — it never raises, for
every storage/filesystem state — and walks the fallback chain in order: the
selected voice's downloaded local file when it exists on disk, else that
voice's remote preview URL, else (stored id matching no voice) the hard-coded
default Makkah URL for the prayer's class. -/
theorem getAdhanUrl_total_chain (env : ResolverEnv) (prayerName : String) :
    (∃ v, getAdhanVoiceById (if toLowerCase prayerName == "fajr" then
          getSelectedFajrAdhan env else getSelectedRegularAdhan env) = some v ∧
      ((env.fileExists (adhanLocalPath v.id) = true ∧
          getAdhanUrlForPrayer env prayerName = adhanLocalPath v.id) ∨
       (env.fileExists (adhanLocalPath v.id) = false ∧
          getAdhanUrlForPrayer env prayerName = v.previewUrl))) ∨
    (getAdhanVoiceById (if toLowerCase prayerName == "fajr" then
        getSelectedFajrAdhan env else getSelectedRegularAdhan env) = none ∧
      getAdhanUrlForPrayer env prayerName =
        (if toLowerCase prayerName == "fajr" then
          "https://www.islamcan.com/audio/adhan/azan7.mp3"
         else "https://www.islamcan.com/audio/adhan/azan1.mp3")) := by
  cases hf : (toLowerCase prayerName == "fajr") with
  | true =>
    rcases hv : getAdhanVoiceById (getSelectedFajrAdhan env) with _ | v
    · right
      refine ⟨by simp [hf, hv], by simp [getAdhanUrlForPrayer, hf, hv]⟩
    · left
      refine ⟨v, by simp [hf, hv], ?_⟩
      by_cases hex : env.fileExists (adhanLocalPath v.id) = true
      · exact Or.inl ⟨hex, by simp [getAdhanUrlForPrayer, hf, hv, hex]⟩
      · have hex' : env.fileExists (adhanLocalPath v.id) = false := by
          simpa using hex
        exact Or.inr ⟨hex', by simp [getAdhanUrlForPrayer, hf, hv, hex']⟩
  | false =>
    rcases hv : getAdhanVoiceById (getSelectedRegularAdhan env) with _ | v
    · right
      refine ⟨by simp [hf, hv], by simp [getAdhanUrlForPrayer, hf, hv]⟩
    · left
      refine ⟨v, by simp [hf, hv], ?_⟩
      by_cases hex : env.fileExists (adhanLocalPath v.id) = true
      · exact Or.inl ⟨hex, by simp [getAdhanUrlForPrayer, hf, hv, hex]⟩
      · have hex' : env.fileExists (adhanLocalPath v.id) = false := by
          simpa using hex
        exact Or.inr ⟨hex', by simp [getAdhanUrlForPrayer, hf, hv, hex']⟩

theorem mem_addFile_self (l : List String) (p : String) : p ∈ addFile l p := by
  unfold addFile
  split
  · next h => simpa using h
  · simp

theorem not_mem_removeFile (l : List String) (p : String) : p ∉ removeFile l p := by
  unfold removeFile
  intro hmem
  have := List.mem_filter.mp hmem
  simp at this

/-- C8: every failing run of `downloadRemoteVoice` — mkdir, network download
or index write failure — returns `null` and leaves the durable index (hence
`listDownloadedVoices()`) and the active pointer unchanged. -/
theorem download_failure_leaves_index (o : DlOutcome) (r : RemoteVoice) (s : VMState)
    (h : o ≠ DlOutcome.success) :
    (downloadRemoteVoice o r s).1 = none ∧
    listDownloadedVoices (downloadRemoteVoice o r s).2 = listDownloadedVoices s ∧
    (downloadRemoteVoice o r s).2.activeId = s.activeId := by
  cases o with
  | success => exact absurd rfl h
  | mkdirFail => exact ⟨rfl, rfl, rfl⟩
  | downloadFail => exact ⟨rfl, rfl, rfl⟩
  | indexWriteFail => exact ⟨rfl, rfl, rfl⟩

/-- Witness for C8 at a concrete failing download. -/
theorem download_failure_leaves_index_witness :
    (downloadRemoteVoice DlOutcome.downloadFail ⟨"r", "R", "u"⟩ ⟨[], none, []⟩).1 = none :=
  (download_failure_leaves_index DlOutcome.downloadFail ⟨"r", "R", "u"⟩ ⟨[], none, []⟩
    (by decide)).1

/-- C10: `getActiveVoice` returns `null` or an element of the downloaded
index whose id is the stored active id; when the stored pointer references an
id absent from the index, the result is `null`, never a fabricated record. -/
theorem getActiveVoice_sound (s : VMState) :
    (∀ m, getActiveVoice s = some m →
      m ∈ listDownloadedVoices s ∧ s.activeId = some m.id) ∧
    (∀ i, s.activeId = some i → (∀ a ∈ s.downloaded, a.id ≠ i) →
      getActiveVoice s = none) := by
  constructor
  · intro m hm
    rcases hact : s.activeId with _ | i
    · simp [getActiveVoice, hact] at hm
    · simp only [getActiveVoice, hact] at hm
      by_cases hi : i = ""
      · rw [if_pos hi] at hm
        cases hm
      · rw [if_neg hi] at hm
        have h1 := List.mem_of_find?_eq_some hm
        have h2 := List.find?_some hm
        have h3 : m.id = i := by simpa using h2
        exact ⟨h1, by rw [h3]⟩
  · intro i hact hnone
    simp only [getActiveVoice, hact]
    by_cases hi : i = ""
    · simp [hi]
    · rw [if_neg hi]
      refine List.find?_eq_none.mpr ?_
      intro a ha
      simp [hnone a ha]

/-- C9 (counterexample): in the first playback handler, when the provided
voice path loads but `replayAsync` throws, the fallback creates a second
sound without unloading the first — after the run two player handles are
live simultaneously, refuting "at most one player resource is held at any
time, on all exit paths including error paths". -/
theorem playAdhan_fallback_two_live_handles :
    (playAdhanV1 (some "p.wav") (fun _ => true) (fun u => u != "p.wav") [] []
        ⟨none, [], 0⟩).1.live.length = 2 ∧
    ¬((playAdhanV1 (some "p.wav") (fun _ => true) (fun u => u != "p.wav") [] []
        ⟨none, [], 0⟩).1.live.length ≤ 1) := by
  decide

/-- C9 (amended): for the second playback handler, two invocations in
succession keep the single-handle discipline: the handle-ownership invariant
is preserved, at most one handle is live at every point of the combined event
trace, and when the first call leaves a held handle, a non-silent second call
with successful creation first releases that handle and only then acquires
the new one. (The first handler satisfies the release-before-create step for
the held handle but can leak a loaded handle inside its own fallback error
path.) -/
theorem playAdhanV2_single_handle (sm1 co1 sm2 co2 : Bool) (st : P1State)
    (hinv : st.live = st.held.toList) :
    (playAdhanV2 sm1 co1 st).1.live = (playAdhanV2 sm1 co1 st).1.held.toList ∧
    (playAdhanV2 sm2 co2 (playAdhanV2 sm1 co1 st).1).1.live =
      (playAdhanV2 sm2 co2 (playAdhanV2 sm1 co1 st).1).1.held.toList ∧
    maxLive st.live ((playAdhanV2 sm1 co1 st).2 ++
      (playAdhanV2 sm2 co2 (playAdhanV2 sm1 co1 st).1).2) ≤ 1 ∧
    (∀ h, (playAdhanV2 sm1 co1 st).1.held = some h → sm2 = false → co2 = true →
      (playAdhanV2 sm2 co2 (playAdhanV2 sm1 co1 st).1).2 =
        [AEvent.rel h, AEvent.acq (playAdhanV2 sm1 co1 st).1.next]) := by
  obtain ⟨held, live, next⟩ := st
  cases held with
  | none =>
    simp only [Option.toList] at hinv
    subst hinv
    cases sm1 <;> cases co1 <;> cases sm2 <;> cases co2 <;>
      simp [playAdhanV2, maxLive, applyEvent, Option.toList]
  | some h0 =>
    simp only [Option.toList] at hinv
    subst hinv
    cases sm1 <;> cases co1 <;> cases sm2 <;> cases co2 <;>
      simp [playAdhanV2, maxLive, applyEvent, Option.toList]

/-- Witness for C9's amended theorem: two non-silent successful invocations
from the empty player state. -/
theorem playAdhanV2_single_handle_witness :
    maxLive ([] : List Nat) ((playAdhanV2 false true ⟨none, [], 0⟩).2 ++
      (playAdhanV2 false true (playAdhanV2 false true ⟨none, [], 0⟩).1).2) ≤ 1 :=
  (playAdhanV2_single_handle false true false true ⟨none, [], 0⟩ rfl).2.2.1

/-- Witness for C10 at a state whose active pointer dangles. -/
theorem getActiveVoice_sound_witness :
    getActiveVoice ⟨[⟨"a", "a", some "p", none⟩], some "b", []⟩ = none :=
  (getActiveVoice_sound ⟨[⟨"a", "a", some "p", none⟩], some "b", []⟩).2 "b" rfl (by decide)

/-- C7: from any initial store state, installing the synthetic voice `deep`
(`downloadVoice`) and activating it makes the scheduling-time resolution
return a local reference to that record's path, with the file on disk;
after `removeDownloadedVoice` the resolution returns `null` (never the
dangling path, which is gone from disk), and playback with a null voice path
falls through to the bundled default asset. -/
theorem voice_install_resolve_roundtrip (s0 : VMState) :
    scheduleVoicePath (setActiveVoice (some "deep") (downloadVoice true "deep" s0).2) =
      some (voiceFilePath "deep") ∧
    voiceFilePath "deep" ∈
      (setActiveVoice (some "deep") (downloadVoice true "deep" s0).2).files ∧
    scheduleVoicePath (removeDownloadedVoice "deep"
      (setActiveVoice (some "deep") (downloadVoice true "deep" s0).2)) = none ∧
    voiceFilePath "deep" ∉ (removeDownloadedVoice "deep"
      (setActiveVoice (some "deep") (downloadVoice true "deep" s0).2)).files ∧
    (playAdhanV1 (scheduleVoicePath (removeDownloadedVoice "deep"
        (setActiveVoice (some "deep") (downloadVoice true "deep" s0).2)))
      (fun _ => true) (fun _ => true) [] [] ⟨none, [], 0⟩).2 = some bundledUri := by
  have hfind : ((s0.downloaded.filter (fun a => a.id != "deep")) ++
      [(⟨"deep", "deep", some (voiceFilePath "deep"), some "deep"⟩ : VoiceMeta)]).find?
        (fun a => a.id == "deep") =
      some ⟨"deep", "deep", some (voiceFilePath "deep"), some "deep"⟩ := by
    rw [List.find?_append]
    have hnone : (s0.downloaded.filter (fun a => a.id != "deep")).find?
        (fun a => a.id == "deep") = none := by
      refine List.find?_eq_none.mpr ?_
      intro a ha
      have := (List.mem_filter.mp ha).2
      simpa using this
    rw [hnone]
    rfl
  refine ⟨?_, ?_, ?_, ?_, ?_⟩
  · simp only [scheduleVoicePath, getActiveVoice, setActiveVoice, downloadVoice]
    simp [hfind]
  · exact mem_addFile_self _ _
  · rfl
  · exact not_mem_removeFile _ _
  · rfl

/-- Witness for C7 starting from the empty store. -/
theorem voice_install_resolve_roundtrip_witness :
    scheduleVoicePath (setActiveVoice (some "deep")
        (downloadVoice true "deep" ⟨[], none, []⟩).2) = some (voiceFilePath "deep") :=
  (voice_install_resolve_roundtrip ⟨[], none, []⟩).1

end AdhanApp
